import Mathlib

/-!
Verification model of the CR2026 election-snapshot pipeline (src/CR2026.py).

The statistics engine (`compute_stats`), the trend classifier
(`get_trend_class`) and the ranking (`generate_results_table`) are embedded
shallowly.  Pandas integer columns divided with `/` follow numpy float64
semantics: division by zero yields +inf, -inf or NaN, `diff` prepends NaN,
`fillna(0)` replaces every NaN by 0 and leaves infinities alone.  Those
semantics are modelled by `FVal`: a finite value carries an exact rational
(every computation the claims touch is exact in float64 as well, so no
rounding is lost), and the three IEEE specials are explicit constructors.
-/

-- Batteries marks the rational operations irreducible for performance; the
-- concrete evaluations below need them to reduce.  This only changes
-- elaborator unfolding; kernel checking is unaffected.
set_option allowUnsafeReducibility true
attribute [semireducible] Rat.mul Rat.add Rat.sub Rat.inv

namespace CR2026

/-- A float64 value as the pipeline can produce it: an (exact) finite value,
or one of the IEEE specials produced by dividing by a zero `valid` total. -/
inductive FVal where
  | fin (q : ℚ)
  | inf
  | ninf
  | nan
deriving DecidableEq

/-- IEEE subtraction on `FVal` (pandas `Series.diff` subtracts cell-wise). -/
def fsub : FVal → FVal → FVal
  | FVal.nan, _ => FVal.nan
  | _, FVal.nan => FVal.nan
  | FVal.fin a, FVal.fin b => FVal.fin (a - b)
  | FVal.fin _, FVal.inf => FVal.ninf
  | FVal.fin _, FVal.ninf => FVal.inf
  | FVal.inf, FVal.inf => FVal.nan
  | FVal.inf, _ => FVal.inf
  | FVal.ninf, FVal.ninf => FVal.nan
  | FVal.ninf, _ => FVal.ninf

/-- numpy true division of two integers: exact when the divisor is nonzero,
otherwise +inf / -inf / NaN by the dividend's sign (with a RuntimeWarning,
not an exception). -/
def fdivInt (a b : Int) : FVal :=
  if b = 0 then
    if 0 < a then FVal.inf else if a < 0 then FVal.ninf else FVal.nan
  else FVal.fin ((a : ℚ) / (b : ℚ))

/-- Multiplication by the constant 100 (`* 100` in `compute_stats`); exact,
and it maps each IEEE special to itself. -/
def fmul100 : FVal → FVal
  | FVal.fin a => FVal.fin (100 * a)
  | v => v

/-- IEEE strict greater-than: any comparison against NaN is false. -/
def fgt : FVal → FVal → Bool
  | FVal.nan, _ => false
  | _, FVal.nan => false
  | FVal.fin a, FVal.fin b => decide (b < a)
  | FVal.inf, FVal.inf => false
  | FVal.inf, _ => true
  | FVal.ninf, _ => false
  | FVal.fin _, FVal.inf => false
  | FVal.fin _, FVal.ninf => true

/-- IEEE strict less-than. -/
def flt (a b : FVal) : Bool := fgt b a

/-- pandas `Series.diff`: first element NaN, then consecutive differences. -/
def sdiff : List FVal → List FVal
  | [] => []
  | x :: xs => FVal.nan :: List.zipWith fsub xs (x :: xs)

/-- pandas `Series.fillna(0)`: every NaN becomes 0; infinities are kept. -/
def fillna0 (s : List FVal) : List FVal :=
  s.map (fun v => if v = FVal.nan then FVal.fin 0 else v)

/-- One row of the input frame (one TSE cut): a timestamp, the per-party
counts (keyed by party code, as the frame's columns are), and the `valid`
and `null` aggregate columns.  All counts are integers (`dtype=int`). -/
structure Cut where
  timestamp : Int
  count : String → Int
  valid : Int
  null : Int

/-- Registry size (src/CR2026.py line 11). -/
def REGISTER : Int := 3731788

/-- The expected column set of the input CSV (src/CR2026.py lines 13-24). -/
def COLUMNS : List String :=
  ["timestamp", "ppso", "pln", "cac", "pusc", "fa", "nr", "plp", "valid", "null"]

/-- The configured party entities, in canonical order (src/CR2026.py line 38). -/
def PARTIES : List String := ["ppso", "pln", "cac", "pusc", "fa", "nr", "plp"]

/-- One cell of the `pct_{col}` column: `(stats[col] / stats["valid"]) * 100`
(src/CR2026.py line 199).  Per-cut: it only reads that cut's row. -/
def pctCell (c : Cut) (p : String) : FVal := fmul100 (fdivInt (c.count p) c.valid)

/-- The `pct_{col}` column of `compute_stats` (src/CR2026.py lines 198-199). -/
def pct_col (run : List Cut) (p : String) : List FVal :=
  run.map (fun c => pctCell c p)

/-- The `growth_{col}` column: `stats[f"pct_{col}"].diff().fillna(0)`
(src/CR2026.py lines 202-203). -/
def growth_col (run : List Cut) (p : String) : List FVal :=
  fillna0 (sdiff (pct_col run p))

/-- The `trend_{col}` column: `stats[f"growth_{col}"].diff().fillna(0)`
(src/CR2026.py lines 206-207).  Note the diff is taken of the already
zero-filled growth column. -/
def trend_col (run : List Cut) (p : String) : List FVal :=
  fillna0 (sdiff (growth_col run p))

/-- The `total_votes` column: `stats["valid"] + stats["null"]`
(src/CR2026.py line 195); integer arithmetic, exact. -/
def total_votes_col (run : List Cut) : List Int :=
  run.map (fun c => c.valid + c.null)

/-- `get_trend_class` (src/CR2026.py lines 222-229): deadband of 0.01 around
zero, NaN compares false on both sides and lands in the neutral branch. -/
def get_trend_class (t : FVal) : String :=
  if fgt t (FVal.fin (1 / 100)) then "trend-up"
  else if flt t (FVal.fin (-(1 / 100))) then "trend-down"
  else "trend-neutral"

/-- The symbol chosen by `get_trend_indicator` (src/CR2026.py lines 212-219);
the numeric text appended to it is presentation-only and not modelled. -/
def get_trend_indicator (t : FVal) : String :=
  if fgt t (FVal.fin (1 / 100)) then "▲"
  else if flt t (FVal.fin (-(1 / 100))) then "▼"
  else "─"

/-- One row of the results table (src/CR2026.py lines 240-253): entity,
raw count at the last cut, percentage at the last cut, trend value at the
last cut and its CSS classification. -/
structure RankedRow where
  party : String
  votes : Int
  pct : FVal
  trend : FVal
  trendClass : String
deriving DecidableEq

/-- The last cell of the `trend_{p}` column, what `last[f"trend_{p}"]` reads
in `generate_results_table` (src/CR2026.py line 242). -/
def last_trend (run : List Cut) (p : String) : FVal :=
  (trend_col run p).getLastD FVal.nan

/-- `generate_results_table` (src/CR2026.py lines 232-253).  `stats.iloc[-1]`
raises `IndexError` on an empty frame, modelled by `none`.  `party_info` is
built in the canonical `PARTIES` order and sorted by votes descending with
Python's stable `list.sort(key=votes, reverse=True)`; a stable descending
sort is modelled by `List.insertionSort` with the reflexive ≥ comparison on
the vote key (equal keys keep their input order). -/
def generate_results_table (parties : List String) (run : List Cut) :
    Option (List RankedRow) :=
  match run.getLast? with
  | none => none
  | some last =>
    let party_info := parties.map (fun p => (p, last.count p, pctCell last p))
    let sorted := party_info.insertionSort (fun a b => b.2.1 ≤ a.2.1)
    some (sorted.map (fun x =>
      { party := x.1, votes := x.2.1, pct := x.2.2,
        trend := last_trend run x.1,
        trendClass := get_trend_class (last_trend run x.1) }))

/-- One tokenized CSV table as `pd.read_csv(input_csv, dtype=int)` sees it: a
header row and the data cells; a cell is `none` when its text does not parse
as an integer (there `read_csv(dtype=int)` raises, before anything else runs). -/
structure Csv where
  header : List String
  cells : List (List (Option Int))

/-- Integer parsing of one row under `dtype=int`: the first unparsable cell
aborts the load with an error. -/
def parse_row : List (Option Int) → Except String (List Int)
  | [] => Except.ok []
  | none :: _ => Except.error "field fails integer parsing"
  | some v :: rest => Except.map (fun r => v :: r) (parse_row rest)

/-- Integer parsing of the whole table under `dtype=int`. -/
def parse_table : List (List (Option Int)) → Except String (List (List Int))
  | [] => Except.ok []
  | r :: rs =>
    match parse_row r with
    | Except.error e => Except.error e
    | Except.ok v => Except.map (fun t => v :: t) (parse_table rs)

/-- The loader of `__main__` (src/CR2026.py lines 414-419): parse every cell
as an integer (`read_csv(dtype=int)`), then require the column list to equal
`COLUMNS` exactly (`raise ValueError` otherwise).  These are the only checks
it performs. -/
def load_run (csv : Csv) : Except String (List (List Int)) :=
  match parse_table csv.cells with
  | Except.error e => Except.error e
  | Except.ok rows =>
    if csv.header = COLUMNS then Except.ok rows
    else Except.error "Unexpected columns"

/-- Modelled from the spec: `turnout_pct = total_votes / fixed_registry * 100`
(spec section 4.2).  The revision under src computes `total_votes`
(`compute_stats`, line 195) but renders no turnout percentage; the spec
defines it against the fixed registry, so it is modelled here from the
spec's words. -/
def turnout_pct (total_votes : Int) : FVal := fmul100 (fdivInt total_votes REGISTER)

/-- A dataframe object on the Python heap: the base rows plus the derived
columns added by mutation.  Used to model that `compute_stats` copies its
input (`stats = df.copy()`, line 193) and mutates only the copy. -/
structure DfObj where
  rows : List Cut
  derived : List (String × List FVal)

/-- The value a fresh address holds before anything is stored there. -/
def emptyDf : DfObj := { rows := [], derived := [] }

/-- The derived columns `compute_stats` assigns, in assignment order
(src/CR2026.py lines 195-207). -/
def derived_columns (parties : List String) (rows : List Cut) :
    List (String × List FVal) :=
  ("total_votes", (total_votes_col rows).map (fun n => FVal.fin (n : ℚ))) ::
    (parties.map (fun p => ("pct_" ++ p, pct_col rows p)) ++
     parties.map (fun p => ("growth_" ++ p, growth_col rows p)) ++
     parties.map (fun p => ("trend_" ++ p, trend_col rows p)))

/-- The stats object `compute_stats` returns, as a pure function of the
input object's value. -/
def stats_of (parties : List String) (o : DfObj) : DfObj :=
  { rows := o.rows, derived := o.derived ++ derived_columns parties o.rows }

/-- `compute_stats` on an explicit heap (addresses are list positions).
`stats = df.copy()` allocates a fresh object at a fresh address holding the
same value; the column assignments then mutate only that fresh address
(`List.set`); the input's address is never written.  Returns the new heap
and the address of the stats object. -/
def compute_stats_heap (parties : List String) (h : List DfObj) (dfAddr : Nat) :
    List DfObj × Nat :=
  let obj := h.getD dfAddr emptyDf
  let statsAddr := h.length
  let h1 := h ++ [obj]
  let h2 := h1.set statsAddr
    { rows := obj.rows, derived := obj.derived ++ derived_columns parties obj.rows }
  (h2, statsAddr)

/-! Concrete inputs used by counterexamples and witnesses. -/

/-- Two cuts, `valid = 100`, one party "a" moving 10 → 20. -/
def runTwo : List Cut :=
  [{ timestamp := 0, count := fun _ => 10, valid := 100, null := 2 },
   { timestamp := 1, count := fun _ => 20, valid := 100, null := 3 }]

/-- The spec's end-to-end example: 3 cuts, reference total 100 per cut
(the code divides by the cut's `valid` column), counts A = [10, 20, 40],
B = [5, 5, 5]. -/
def runAB : List Cut :=
  [{ timestamp := 0, count := fun p => if p = "A" then 10 else if p = "B" then 5 else 0,
     valid := 100, null := 0 },
   { timestamp := 1, count := fun p => if p = "A" then 20 else if p = "B" then 5 else 0,
     valid := 100, null := 0 },
   { timestamp := 2, count := fun p => if p = "A" then 40 else if p = "B" then 5 else 0,
     valid := 100, null := 0 }]

/-- A single cut with `valid = 0` and positive counts. -/
def runZeroValid : List Cut :=
  [{ timestamp := 0, count := fun _ => 10, valid := 0, null := 0 }]

/-- One cut, all counts zero, `valid = 1`: forces a seven-way tie. -/
def runTie : List Cut :=
  [{ timestamp := 0, count := fun _ => 0, valid := 1, null := 0 }]

/-- A well-formed cut before a degenerate one. -/
def preW : List Cut := [{ timestamp := 0, count := fun _ => 1, valid := 100, null := 0 }]

/-- A degenerate cut: `valid = 0`, count 10. -/
def cutW : Cut := { timestamp := 1, count := fun _ => 10, valid := 0, null := 0 }

/-- A well-formed cut after the degenerate one. -/
def postW : List Cut := [{ timestamp := 2, count := fun _ => 3, valid := 50, null := 0 }]

/-- A CSV table with the exact expected columns, a negative count (`ppso`
and `valid` are -5 in the first row) and strictly decreasing timestamps
(10 then 5): malformed under the spec's Snapshot Model contract. -/
def badCsv : Csv :=
  { header := COLUMNS,
    cells := [[some 10, some (-5), some 0, some 0, some 0, some 0, some 0, some 0,
               some (-5), some 0],
              [some 5, some 1, some 0, some 0, some 0, some 0, some 0, some 0,
               some 1, some 0]] }

/-- A one-object heap for the purity witness. -/
def heapW : List DfObj :=
  [{ rows := runTwo, derived := [] }]

/-- The seven-way-tie table: all counts 0, so the rows keep `PARTIES` order. -/
def rowsTie : List RankedRow :=
  PARTIES.map (fun p =>
    { party := p, votes := 0, pct := FVal.fin 0, trend := FVal.fin 0,
      trendClass := "trend-neutral" })

end CR2026

namespace CR2026

lemma get_trend_class_fin (q : ℚ) :
    get_trend_class (FVal.fin q) =
      if 1 / 100 < q then "trend-up"
      else if q < -(1 / 100) then "trend-down"
      else "trend-neutral" := by
  simp [get_trend_class, fgt, flt]

/-- C6: the classifier tags a finite trend value rising exactly when it
exceeds 0.01, falling exactly when it is below -0.01, and flat otherwise;
0.01 itself is flat, 0.010001 rising, -0.010001 falling. -/
theorem C6_classifier_deadband :
    (∀ q : ℚ, (get_trend_class (FVal.fin q) = "trend-up" ↔ 1 / 100 < q)) ∧
    (∀ q : ℚ, (get_trend_class (FVal.fin q) = "trend-down" ↔ q < -(1 / 100))) ∧
    (∀ q : ℚ, (get_trend_class (FVal.fin q) = "trend-neutral" ↔
      (¬ 1 / 100 < q ∧ ¬ q < -(1 / 100)))) ∧
    get_trend_class (FVal.fin (1 / 100)) = "trend-neutral" ∧
    get_trend_class (FVal.fin (10001 / 1000000)) = "trend-up" ∧
    get_trend_class (FVal.fin (-(10001 / 1000000))) = "trend-down" := by
  refine ⟨fun q => ?_, fun q => ?_, fun q => ?_, by decide, by decide, by decide⟩ <;>
    rw [get_trend_class_fin] <;> split_ifs with h1 h2 <;> simp_all <;> linarith

/-- C4 counterexample: on the empty Run `generate_results_table` fails (the
`stats.iloc[-1]` access raises `IndexError`, modelled by `none`); it does not
return an empty list. -/
theorem C4_empty_run_counterexample :
    generate_results_table PARTIES [] = none ∧
    generate_results_table PARTIES [] ≠ some [] := by decide

/-- C4 amended: on a Run with zero cuts the ranking component raises
(returns no table at all) instead of returning an empty list. -/
theorem C4_empty_run_amended (parties : List String) :
    generate_results_table parties [] = none := rfl

/-- C2 counterexample: on the spec example the trend series of A is not
[0, 0, 10] (the code zero-fills growth before differencing again, so
trend[1] = growth[1] = 10). -/
theorem C2_example_counterexample :
    ¬ (trend_col runAB "A" = [FVal.fin 0, FVal.fin 0, FVal.fin 10]) := by decide

/-- C2 amended: the pipeline on the example Run (3 cuts, per-cut reference
total 100, counts A = [10,20,40], B = [5,5,5]) yields the claimed
percentages and growth, but A.trend = [0, 10, 10] (not [0, 0, 10]); the
final table is A first (40 votes, trend 10, rising) then B (5 votes, trend
0, flat). -/
theorem C2_example_amended :
    pct_col runAB "A" = [FVal.fin 10, FVal.fin 20, FVal.fin 40] ∧
    growth_col runAB "A" = [FVal.fin 0, FVal.fin 10, FVal.fin 20] ∧
    trend_col runAB "A" = [FVal.fin 0, FVal.fin 10, FVal.fin 10] ∧
    pct_col runAB "B" = [FVal.fin 5, FVal.fin 5, FVal.fin 5] ∧
    growth_col runAB "B" = [FVal.fin 0, FVal.fin 0, FVal.fin 0] ∧
    trend_col runAB "B" = [FVal.fin 0, FVal.fin 0, FVal.fin 0] ∧
    generate_results_table ["A", "B"] runAB =
      some [{ party := "A", votes := 40, pct := FVal.fin 40,
              trend := FVal.fin 10, trendClass := "trend-up" },
            { party := "B", votes := 5, pct := FVal.fin 5,
              trend := FVal.fin 0, trendClass := "trend-neutral" }] := by decide

lemma fsub_fin_zero (v : FVal) (h : v ≠ FVal.nan) : fsub v (FVal.fin 0) = v := by
  cases v <;> simp_all [fsub]

/-- C1 counterexample: on a two-cut Run where the party's percentage moves
from 10 to 20, trend[1] is 10, not 0. -/
theorem C1_no_history_counterexample :
    (trend_col runTwo "ppso")[1]? = some (FVal.fin 10) ∧
    ¬ ((trend_col runTwo "ppso")[1]? = some (FVal.fin 0)) := by decide

/-- C1 amended: growth[0] = 0 and trend[0] = 0 for every Run and entity,
but trend[1] equals growth[1] (the first percentage difference), because
`compute_stats` zero-fills the growth series before differencing it again;
it is 0 only when the percentage did not move. -/
theorem C1_no_history_amended (run : List Cut) (p : String) (h : run ≠ []) :
    (growth_col run p)[0]? = some (FVal.fin 0) ∧
    (trend_col run p)[0]? = some (FVal.fin 0) ∧
    (trend_col run p)[1]? = (growth_col run p)[1]? := by
  match run with
  | [] => exact absurd rfl h
  | c :: rest =>
    refine ⟨?_, ?_, ?_⟩
    · simp [growth_col, pct_col, sdiff, fillna0]
    · simp [trend_col, growth_col, pct_col, sdiff, fillna0]
    · match rest with
      | [] => simp [trend_col, growth_col, pct_col, sdiff, fillna0]
      | c2 :: rest2 =>
        simp only [trend_col, growth_col, pct_col, List.map_cons, sdiff, fillna0,
          List.zipWith_cons_cons, if_pos rfl]
        generalize fsub (pctCell c2 p) (pctCell c p) = w
        cases w <;> simp [fsub]

lemma parse_row_ok (row : List (Option Int)) (h : ∀ c ∈ row, c ≠ none) :
    parse_row row = Except.ok (row.filterMap id) := by
  induction row with
  | nil => rfl
  | cons c rest ih =>
    cases c with
    | none => exact absurd rfl (h none (by simp))
    | some v =>
      simp [parse_row, Except.map, ih (fun c hc => h c (List.mem_cons_of_mem _ hc))]

lemma parse_row_err (row : List (Option Int)) (h : none ∈ row) :
    ∃ e, parse_row row = Except.error e := by
  induction row with
  | nil => simp at h
  | cons c rest ih =>
    cases c with
    | none => exact ⟨_, rfl⟩
    | some v =>
      rcases List.mem_cons.mp h with h1 | h2
      · simp at h1
      · rcases ih h2 with ⟨e, he⟩
        exact ⟨e, by simp [parse_row, Except.map, he]⟩

lemma parse_table_ok (t : List (List (Option Int)))
    (h : ∀ row ∈ t, ∀ c ∈ row, c ≠ none) :
    parse_table t = Except.ok (t.map (fun row => row.filterMap id)) := by
  induction t with
  | nil => rfl
  | cons r rs ih =>
    rw [parse_table, parse_row_ok r (h r (by simp)),
      ih (fun row hr => h row (List.mem_cons_of_mem _ hr))]
    simp [Except.map]

lemma parse_table_err (t : List (List (Option Int)))
    (h : ∃ row ∈ t, none ∈ row) :
    ∃ e, parse_table t = Except.error e := by
  induction t with
  | nil => simp at h
  | cons r rs ih =>
    by_cases hr : none ∈ r
    · rcases parse_row_err r hr with ⟨e, he⟩
      exact ⟨e, by rw [parse_table, he]⟩
    · rcases h with ⟨row, hrow, hnone⟩
      rcases List.mem_cons.mp hrow with h1 | h2
      · exact absurd (h1 ▸ hnone) hr
      · rcases ih ⟨row, h2, hnone⟩ with ⟨e, he⟩
        rcases he2 : parse_row r with e2 | v
        · exact ⟨e2, by rw [parse_table, he2]⟩
        · exact ⟨e, by simp [parse_table, Except.map, he2, he]⟩

/-- C3 counterexample: a table with the exact expected columns, a negative
count (-5) and strictly decreasing timestamps (10 then 5) — malformed under
the Snapshot Model contract — is accepted by the loader, which returns a
Run instead of failing. -/
theorem C3_validation_counterexample :
    load_run badCsv =
      Except.ok [[10, -5, 0, 0, 0, 0, 0, 0, -5, 0],
                 [5, 1, 0, 0, 0, 0, 0, 0, 1, 0]] ∧
    (5 : Int) < 10 ∧ (-5 : Int) < 0 := ⟨rfl, by decide, by decide⟩

/-- C3 amended: the loader rejects a table with an unparsable (non-integer)
cell and rejects a column set different from `COLUMNS`, but it performs no
other validation: every all-integer table with the exact expected columns is
accepted, negative counts and decreasing timestamps included. -/
theorem C3_validation_amended (csv : Csv) :
    ((∃ row ∈ csv.cells, none ∈ row) → ∃ e, load_run csv = Except.error e) ∧
    (csv.header ≠ COLUMNS → ∀ rows, load_run csv ≠ Except.ok rows) ∧
    ((∀ row ∈ csv.cells, ∀ c ∈ row, c ≠ none) → csv.header = COLUMNS →
      load_run csv = Except.ok (csv.cells.map (fun row => row.filterMap id))) := by
  refine ⟨fun h => ?_, fun hh rows hok => ?_, fun h hcols => ?_⟩
  · rcases parse_table_err csv.cells h with ⟨e, he⟩
    exact ⟨e, by rw [load_run, he]⟩
  · rcases he : parse_table csv.cells with e | v
    · simp [load_run, he] at hok
    · simp [load_run, he, hh] at hok
  · simp [load_run, parse_table_ok csv.cells h, hcols]

/-- C8: for every cut, `total_votes` is exactly `valid + null` (integer
arithmetic, src/CR2026.py line 195), and the spec-modelled turnout
percentage equals `total_votes / REGISTER * 100`. -/
theorem C8_turnout_aggregate (run : List Cut) (i : Nat) (h : i < run.length) :
    (total_votes_col run)[i]? = some ((run.get ⟨i, h⟩).valid + (run.get ⟨i, h⟩).null) ∧
    turnout_pct ((run.get ⟨i, h⟩).valid + (run.get ⟨i, h⟩).null) =
      FVal.fin ((((run.get ⟨i, h⟩).valid + (run.get ⟨i, h⟩).null : Int) : ℚ)
        / (REGISTER : ℚ) * 100) := by
  constructor
  · simp [total_votes_col, List.getElem?_eq_getElem h]
  · simp [turnout_pct, fdivInt, fmul100, REGISTER]
    ring

/-- C8 witness: the aggregate at the first cut of the two-cut Run. -/
theorem C8_turnout_witness :
    (total_votes_col runTwo)[0]? =
      some ((runTwo.get ⟨0, by decide⟩).valid + (runTwo.get ⟨0, by decide⟩).null) :=
  (C8_turnout_aggregate runTwo 0 (by decide)).1

/-- C7 counterexample: a cut with `valid = 0` and a positive count yields
+infinity for that cut's percentage, which is not the claimed not-a-number
sentinel. -/
theorem C7_zero_valid_counterexample :
    pct_col runZeroValid "ppso" = [FVal.inf] ∧ FVal.inf ≠ FVal.nan := by decide

/-- C7 amended: a cut with `valid = 0` raises nothing; its party percentage
becomes a non-finite sentinel — +inf for a positive count, -inf for a
negative one, NaN only for a zero count — and the percentage of every other
cut is exactly what it is in the Run without the degenerate cut. -/
theorem C7_zero_valid_amended (pre post : List Cut) (c : Cut) (p : String)
    (hv : c.valid = 0) :
    ((pct_col (pre ++ c :: post) p)[pre.length]? =
      some (if 0 < c.count p then FVal.inf
            else if c.count p < 0 then FVal.ninf else FVal.nan)) ∧
    (∀ j, j < pre.length →
      (pct_col (pre ++ c :: post) p)[j]? = (pct_col (pre ++ post) p)[j]?) ∧
    (∀ j, pre.length ≤ j →
      (pct_col (pre ++ c :: post) p)[j + 1]? = (pct_col (pre ++ post) p)[j]?) := by
  have hmap : ∀ (l1 l2 : List Cut), pct_col (l1 ++ l2) p = pct_col l1 p ++ pct_col l2 p :=
    fun l1 l2 => List.map_append _ _ _
  have hlen : (pct_col pre p).length = pre.length := List.length_map _ _
  refine ⟨?_, fun j hj => ?_, fun j hj => ?_⟩
  · rw [hmap, List.getElem?_append_right (le_of_eq hlen)]
    rw [hlen]
    simp only [Nat.sub_self, pct_col, List.map_cons, List.getElem?_cons_zero]
    rw [pctCell, hv, fdivInt]
    split_ifs <;> simp_all [fmul100]
  · rw [hmap, hmap, List.getElem?_append, List.getElem?_append, if_pos (by omega), if_pos (by omega)]
  · rw [hmap, hmap, List.getElem?_append_right (by omega),
      List.getElem?_append_right (by omega), hlen]
    have : j + 1 - pre.length = (j - pre.length) + 1 := by omega
    rw [this]
    simp [pct_col]

/-- C7 witness: with one sound cut before and after, the degenerate middle
cut's percentage is +inf. -/
theorem C7_zero_valid_witness :
    (pct_col (preW ++ cutW :: postW) "ppso")[preW.length]? = some FVal.inf := by
  have h := (C7_zero_valid_amended preW postW cutW "ppso" rfl).1
  simpa [cutW] using h

lemma tie_orderedInsert {α : Type} (key : α → Int) (idx : α → Nat) (x : α) :
    ∀ l : List α,
      l.Pairwise (fun a b => key a = key b → idx a < idx b) →
      (∀ y ∈ l, key x = key y → idx x < idx y) →
      (List.orderedInsert (fun a b => key b ≤ key a) x l).Pairwise
        (fun a b => key a = key b → idx a < idx b)
  | [], _, _ => by simp
  | y :: ys, hp, hx => by
    rw [List.orderedInsert]
    split_ifs with hr
    · exact List.Pairwise.cons (fun z hz => hx z hz) hp
    · refine List.Pairwise.cons ?_
        (tie_orderedInsert key idx x ys hp.of_cons
          (fun z hz => hx z (List.mem_cons_of_mem _ hz)))
      intro z hz hkey
      rcases (List.mem_orderedInsert _).mp hz with rfl | hz2
      · exact absurd (le_of_eq hkey) hr
      · exact List.rel_of_pairwise_cons hp hz2 hkey

lemma tie_insertionSort {α : Type} (key : α → Int) (idx : α → Nat) :
    ∀ l : List α,
      l.Pairwise (fun a b => key a = key b → idx a < idx b) →
      (List.insertionSort (fun a b => key b ≤ key a) l).Pairwise
        (fun a b => key a = key b → idx a < idx b)
  | [], _ => by simp
  | x :: xs, hp => by
    rw [List.insertionSort]
    refine tie_orderedInsert key idx x _ (tie_insertionSort key idx xs hp.of_cons) ?_
    intro y hy hkey
    exact List.rel_of_pairwise_cons hp ((List.mem_insertionSort _).mp hy) hkey

lemma nodup_pairwise_indexOf (l : List String) (h : l.Nodup) :
    l.Pairwise (fun p q => l.indexOf p < l.indexOf q) := by
  rw [List.pairwise_iff_getElem]
  intro i j hi hj hij
  rw [List.indexOf_getElem h i hi, List.indexOf_getElem h j hj]
  exact hij

/-- C5: the ranked rows are sorted by raw count at the final cut,
descending, and rows with equal counts appear in the canonical order of the
configured party list (Python's sort is stable). -/
theorem C5_ranking_sorted_stable (parties : List String) (run : List Cut)
    (rows : List RankedRow) (hnd : parties.Nodup)
    (h : generate_results_table parties run = some rows) :
    rows.Pairwise (fun a b => b.votes ≤ a.votes) ∧
    rows.Pairwise (fun a b => a.votes = b.votes →
      parties.indexOf a.party < parties.indexOf b.party) := by
  cases hlast : run.getLast? with
  | none => simp [generate_results_table, hlast] at h
  | some last =>
    simp only [generate_results_table, hlast] at h
    have hrows := (Option.some.inj h).symm
    subst hrows
    constructor
    · haveI ht : IsTotal (String × Int × FVal) (fun a b => b.2.1 ≤ a.2.1) :=
        ⟨fun a b => (le_total b.2.1 a.2.1)⟩
      haveI htr : IsTrans (String × Int × FVal) (fun a b => b.2.1 ≤ a.2.1) :=
        ⟨fun a b c hab hbc => le_trans hbc hab⟩
      have hs := List.sorted_insertionSort (fun (a b : String × Int × FVal) => b.2.1 ≤ a.2.1)
        (parties.map (fun p => (p, last.count p, pctCell last p)))
      exact hs.map _ (fun a b hab => hab)
    · have hinfo : (parties.map (fun p => (p, last.count p, pctCell last p))).Pairwise
          (fun a b => parties.indexOf a.1 < parties.indexOf b.1) := by
        rw [List.pairwise_map]
        exact nodup_pairwise_indexOf parties hnd
      have hinfo2 : (parties.map (fun p => (p, last.count p, pctCell last p))).Pairwise
          (fun a b => a.2.1 = b.2.1 → parties.indexOf a.1 < parties.indexOf b.1) := by
        refine hinfo.imp ?_
        intro a b hab
        exact fun _ => hab
      have htie := tie_insertionSort (fun x : String × Int × FVal => x.2.1)
        (fun x : String × Int × FVal => parties.indexOf x.1) _ hinfo2
      exact htie.map _ (fun a b hab => hab)

/-- C5 witness: on the all-tied Run, the seven equal-count rows are sorted
and keep the configured canonical order. -/
theorem C5_ranking_sorted_stable_witness :
    List.Pairwise (fun a b => b.votes ≤ a.votes) rowsTie ∧
    List.Pairwise (fun a b => a.votes = b.votes →
      PARTIES.indexOf a.party < PARTIES.indexOf b.party) rowsTie :=
  C5_ranking_sorted_stable PARTIES runTie rowsTie (by decide) (by decide)

lemma map_party_table (parties : List String) (run : List Cut)
    (rows : List RankedRow) (h : generate_results_table parties run = some rows) :
    List.Perm (rows.map (fun r => r.party)) parties := by
  cases hlast : run.getLast? with
  | none => simp [generate_results_table, hlast] at h
  | some last =>
    simp only [generate_results_table, hlast] at h
    have hrows := (Option.some.inj h).symm
    subst hrows
    rw [List.map_map]
    refine List.Perm.trans (List.Perm.map _ (List.perm_insertionSort _ _)) ?_
    rw [List.map_map]
    show (List.map (fun p : String => p) parties).Perm parties
    simp

/-- C10: the ranked table is always a permutation of the seven configured
parties: exactly one row per entity of PARTIES, none dropped, none
duplicated, whatever the counts. -/
theorem C10_ranking_permutation (run : List Cut) (rows : List RankedRow)
    (h : generate_results_table PARTIES run = some rows) :
    List.Perm (rows.map (fun r => r.party)) PARTIES ∧
    rows.length = 7 ∧
    ∀ p ∈ PARTIES, (rows.map (fun r => r.party)).count p = 1 := by
  have hperm := map_party_table PARTIES run rows h
  refine ⟨hperm, ?_, ?_⟩
  · have hl := hperm.length_eq
    simpa [PARTIES] using hl
  · intro p hp
    rw [hperm.count_eq]
    fin_cases hp <;> decide

/-- C10 witness: the all-tied Run yields exactly the seven parties, once
each. -/
theorem C10_ranking_permutation_witness :
    List.Perm (rowsTie.map (fun r => r.party)) PARTIES ∧
    rowsTie.length = 7 ∧
    ∀ p ∈ PARTIES, (rowsTie.map (fun r => r.party)).count p = 1 :=
  C10_ranking_permutation runTie rowsTie (by decide)

lemma set_append_length {α : Type} (l : List α) (a v : α) :
    (l ++ [a]).set l.length v = l ++ [v] := by
  induction l with
  | nil => rfl
  | cons x xs ih => simp [List.set, ih]

lemma compute_stats_heap_eq (parties : List String) (h : List DfObj) (a : Nat) :
    compute_stats_heap parties h a =
      (h ++ [stats_of parties (h.getD a emptyDf)], h.length) := by
  unfold compute_stats_heap stats_of
  simp [set_append_length]

/-- C9: the pipeline is pure.  `compute_stats` copies the input frame and
mutates only the copy, so the Run's heap cell is unchanged; the stats object
is a pure function of the input object's value, a second invocation on the
resulting heap produces an identical stats object, and the ranked tables
generated from the two stats objects are identical. -/
theorem C9_pipeline_pure (parties : List String) (h : List DfObj) (a : Nat)
    (ha : a < h.length) :
    ((compute_stats_heap parties h a).1[a]? = h[a]?) ∧
    ((compute_stats_heap parties h a).1[(compute_stats_heap parties h a).2]? =
      some (stats_of parties (h.getD a emptyDf))) ∧
    ((compute_stats_heap parties (compute_stats_heap parties h a).1 a).1[
        (compute_stats_heap parties (compute_stats_heap parties h a).1 a).2]? =
      (compute_stats_heap parties h a).1[(compute_stats_heap parties h a).2]?) ∧
    (Option.map (fun o => generate_results_table parties o.rows)
        ((compute_stats_heap parties (compute_stats_heap parties h a).1 a).1[
          (compute_stats_heap parties (compute_stats_heap parties h a).1 a).2]?) =
      Option.map (fun o => generate_results_table parties o.rows)
        ((compute_stats_heap parties h a).1[(compute_stats_heap parties h a).2]?)) := by
  have e1 := compute_stats_heap_eq parties h a
  have hgd : (h ++ [stats_of parties (h.getD a emptyDf)]).getD a emptyDf =
      h.getD a emptyDf := by
    rw [List.getD_eq_getElem?_getD, List.getD_eq_getElem?_getD,
      List.getElem?_append, if_pos ha]
  have e2 := compute_stats_heap_eq parties (h ++ [stats_of parties (h.getD a emptyDf)]) a
  rw [hgd] at e2
  have c3 : (compute_stats_heap parties (compute_stats_heap parties h a).1 a).1[
      (compute_stats_heap parties (compute_stats_heap parties h a).1 a).2]? =
      (compute_stats_heap parties h a).1[(compute_stats_heap parties h a).2]? := by
    rw [e1]
    rw [e2]
    rw [List.getElem?_concat_length, List.getElem?_concat_length]
  refine ⟨?_, ?_, c3, ?_⟩
  · rw [e1]
    rw [List.getElem?_append, if_pos ha]
  · rw [e1]
    exact List.getElem?_concat_length _ _
  · rw [c3]

/-- C9 witness: on a one-object heap holding the two-cut Run, the Run's
cell is untouched by the computation. -/
theorem C9_pipeline_pure_witness :
    (compute_stats_heap PARTIES heapW 0).1[0]? = heapW[0]? :=
  (C9_pipeline_pure PARTIES heapW 0 (by decide)).1

theorem C1_no_history_witness :
    (growth_col runTwo "ppso")[0]? = some (FVal.fin 0) ∧
    (trend_col runTwo "ppso")[0]? = some (FVal.fin 0) ∧
    (trend_col runTwo "ppso")[1]? = (growth_col runTwo "ppso")[1]? :=
  C1_no_history_amended runTwo "ppso" (by simp [runTwo])

end CR2026
